import Mathlib

/-!
Shallow embedding of the context-budgeting core of `lazy-commit`
(`src/lazy_commit/prompting.py` and `src/lazy_commit/token_count.py`).

Python strings are modelled as `List Char` (sequences of code points), so
`len`, slicing and concatenation are list length, `take`/`drop` and append.
The tiktoken backend is external to the repository; it is modelled as an
abstract encoding (`encode`/`decode`) exactly as the repository's own test
doubles do, and the module-level lookup functions (`get_encoding`,
`encoding_for_model`) return `Option` values, `none` standing for the
`KeyError` the real module raises.
-/

namespace LazyCommit

/-- Python strings as lists of code points. -/
abbrev Str := List Char

/-- Coerce a Lean string literal into the `Str` model. -/
def str (s : String) : Str := s.data

/-- The whitespace set of Python `str.strip` (ASCII part, which is all the
source ever produces). -/
def isPySpace (c : Char) : Bool :=
  c = ' ' || c = '\t' || c = '\n' || c = '\r' || c = '\x0b' || c = '\x0c'

/-- Python `str.lstrip()`. -/
def pyLstrip (l : Str) : Str := l.dropWhile isPySpace

/-- Python `str.rstrip()`. -/
def pyRstrip (l : Str) : Str := (l.reverse.dropWhile isPySpace).reverse

/-- Python `str.strip()`. -/
def pyStrip (l : Str) : Str := pyRstrip (pyLstrip l)

/-- Python `str.lower()` (per-character, as used on ASCII titles). -/
def pyLower (l : Str) : Str := l.map Char.toLower

/-- Python `sep.join(parts)`. -/
def pyJoin (sep : Str) : List Str → Str
  | [] => []
  | [x] => x
  | x :: xs => x ++ sep ++ pyJoin sep xs

/-- Helper for `pySplitlines`: split on a newline character, keeping a
trailing empty piece. Always returns a non-empty list. -/
def splitNLAux : Str → List Str
  | [] => [[]]
  | c :: rest =>
    match splitNLAux rest with
    | [] => [[]]
    | h :: tl => if c = '\n' then [] :: h :: tl else (c :: h) :: tl

/-- Python `str.splitlines()` restricted to `\n` separators (the only line
separator the source produces). -/
def pySplitlines (l : Str) : List Str :=
  if l = [] then []
  else if l.getLast? = some '\n' then (splitNLAux l).dropLast
  else splitNLAux l

/-! ### prompting.py: section rendering -/

/-- Model of `prompting._section`: render one titled section, or nothing when the
content is whitespace-only. -/
def _section (title content : Str) : Str :=
  if pyStrip content = [] then []
  else str "## " ++ title ++ ['\n'] ++ pyStrip content ++ ['\n']

/-- The loop body of `prompting._trim_sections`, producing the `buffer`
list. `used` tracks the characters consumed so far; Python `remaining <= 0`
and `max(0, remaining - 20)` coincide with truncated `Nat` subtraction. -/
def trimGo (max_chars : Nat) : List (Str × Str) → Nat → List Str
  | [], _ => []
  | (title, content) :: rest, used =>
    let rendered := _section title content
    if rendered = [] then trimGo max_chars rest used
    else
      let remaining := max_chars - used
      if remaining = 0 then []
      else if rendered.length ≤ remaining then
        rendered :: trimGo max_chars rest (used + rendered.length)
      else
        let head := rendered.take (remaining - 20)
        if head = [] then []
        else [pyRstrip head ++ str "\n...[truncated]\n"]

/-- Model of `prompting._trim_sections`: join the buffer parts (each right-stripped,
empty ones filtered) with newlines and strip the result. -/
def _trim_sections (sections : List (Str × Str)) (max_chars : Nat) : Str :=
  pyStrip (pyJoin ['\n'] (((trimGo max_chars sections 0).filter (· ≠ [])).map pyRstrip))

/-! ### git_ops.py: the snapshot record consumed by the renderer -/

/-- Model of `git_ops.RepoSnapshot`: the change description fields used by
`prompting`. -/
structure RepoSnapshot where
  branch : Str
  status_short : Str
  staged_diff : Str
  unstaged_diff : Str
  untracked_files : Str
  changed_files : List Str
  recent_commits : Str

/-- Model of `prompting._build_sections`: the fixed, ordered section list. -/
def _build_sections (snapshot : RepoSnapshot) : List (Str × Str) :=
  let changed := pyJoin ['\n'] (snapshot.changed_files.map (fun path => str "- " ++ path))
  [ (str "Branch", snapshot.branch)
  , (str "Changed Files", changed)
  , (str "Working Tree Status", snapshot.status_short)
  , (str "Staged Diff", snapshot.staged_diff)
  , (str "Unstaged Diff", snapshot.unstaged_diff)
  , (str "Untracked Files", snapshot.untracked_files)
  , (str "Recent Commit Subjects", snapshot.recent_commits) ]

/-- Model of `prompting._compress_diff_text`: keep a head/tail window of the lines
and replace the omitted middle with a count-annotated marker line. -/
def _compress_diff_text (text : Str) (head_lines tail_lines : Nat) : Str :=
  let lines := pySplitlines text
  if lines.length ≤ head_lines + tail_lines + 1 then text
  else
    let kept_head := lines.take head_lines
    let kept_tail := if tail_lines > 0 then lines.drop (lines.length - tail_lines) else []
    let omitted := lines.length - kept_head.length - kept_tail.length
    let marker := [str "...[diff compressed: " ++ (Nat.repr omitted).data ++ str " lines omitted]..."]
    pyJoin ['\n'] (kept_head ++ marker ++ kept_tail)

/-! ### errors.py -/

/-- Model of `errors.ConfigError`, carrying its message. -/
structure ConfigError where
  msg : Str
deriving DecidableEq

/-! ### token_count.py -/

/-- Model of `token_count.DEFAULT_TOKEN_MODEL`. -/
def DEFAULT_TOKEN_MODEL : Str := str "gpt-4.1-mini"

/-- Model of `token_count._FALLBACK_ENCODINGS`. -/
def _FALLBACK_ENCODINGS : List Str := [str "o200k_base", str "cl100k_base"]

/-- An encoding handle of the counting backend: `encode`/`decode` over an
abstract token type, as exercised by the repository's test doubles. -/
structure Encoding (α : Type) where
  encode : Str → List α
  decode : List α → Str

/-- The consistency contract the backend owes (spec section 4.2): encoding
the empty string yields no tokens, only the empty string encodes to no
tokens, and re-encoding a decoded token prefix never exceeds its length. -/
structure Encoding.Faithful {α : Type} (e : Encoding α) : Prop where
  encode_nil : e.encode [] = []
  eq_nil_of_encode_eq_nil : ∀ s, e.encode s = [] → s = []
  take_bound : ∀ s k, (e.encode (e.decode ((e.encode s).take k))).length ≤ k

/-- Model of `token_count.TokenCounter`: a reusable counter bound to one resolved
model/encoding pair. -/
structure TokenCounter (α : Type) where
  model_name : Str
  encoding_name : Str
  encoding : Encoding α

/-- Model of `TokenCounter.count`. -/
def TokenCounter.count {α : Type} (c : TokenCounter α) (text : Str) : Nat :=
  (c.encoding.encode text).length

/-- Model of `TokenCounter.truncate`. `max_tokens` is a Python `int`, hence `Int`. -/
def TokenCounter.truncate {α : Type} (c : TokenCounter α) (text : Str) (max_tokens : Int) : Str :=
  if max_tokens ≤ 0 then []
  else
    let tokens := c.encoding.encode text
    if (tokens.length : Int) ≤ max_tokens then text
    else c.encoding.decode (tokens.take max_tokens.toNat)

/-- A named encoding handle as returned by the backend module
(`tiktoken.get_encoding` / `tiktoken.encoding_for_model` results expose a
`.name`). -/
structure BackendEncoding (α : Type) where
  name : Str
  encoding : Encoding α

/-- The loaded counting-backend module. `none` models the `KeyError` the
real module raises for unrecognized names. -/
structure TiktokenModule (α : Type) where
  get_encoding : Str → Option (BackendEncoding α)
  encoding_for_model : Str → Option (BackendEncoding α)

/-- The fallback loop of `token_count._resolve_encoding`: the first
fallback name the backend recognizes, with its handle. -/
def _first_recognized_fallback {α : Type} (tk : TiktokenModule α) :
    List Str → Option (Str × BackendEncoding α)
  | [] => none
  | fallback_name :: rest =>
    match tk.get_encoding fallback_name with
    | some e => some (fallback_name, e)
    | none => _first_recognized_fallback tk rest

/-- The model-derived branch of `token_count._resolve_encoding`: canonical
encoding for the model, else the first recognized fallback, else the named
resolution failure. -/
def _resolve_model_encoding {α : Type} (tk : TiktokenModule α) (model_name : Str) :
    Except ConfigError (Str × BackendEncoding α) :=
  match tk.encoding_for_model model_name with
  | some encoding => .ok (encoding.name, encoding)
  | none =>
    match _first_recognized_fallback tk _FALLBACK_ENCODINGS with
    | some r => .ok r
    | none =>
      .error ⟨str "Unable to resolve tokenizer encoding for model '" ++ model_name
        ++ str "'. Pass --token-encoding explicitly."⟩

/-- Model of `token_count._resolve_encoding`. A `some` but empty `encoding_name` is
falsy in Python and falls through to the model branch. -/
def _resolve_encoding {α : Type} (tk : TiktokenModule α) (model_name : Str)
    (encoding_name : Option Str) : Except ConfigError (Str × BackendEncoding α) :=
  match encoding_name with
  | some name =>
    if name = [] then _resolve_model_encoding tk model_name
    else
      match tk.get_encoding name with
      | some e => .ok (name, e)
      | none => .error ⟨str "Unknown token encoding: " ++ name⟩
  | none => _resolve_model_encoding tk model_name

/-- Model of `token_count.create_token_counter`, given an already-loaded backend
module. -/
def create_token_counter {α : Type} (tk : TiktokenModule α) (model_name : Str)
    (encoding_name : Option Str) : Except ConfigError (TokenCounter α) :=
  (_resolve_encoding tk model_name encoding_name).map
    (fun r => ⟨model_name, r.1, r.2.encoding⟩)

/-! ### prompting.py: payload types and the compression pipeline -/

/-- Model of `prompting.SYSTEM_PROMPT`. -/
def SYSTEM_PROMPT : Str :=
  str "You are an expert software engineer writing high-quality Conventional Commit messages.\nAnalyze the git changes and return ONLY valid JSON with this schema:\n\x7b\n  \"type\": \"feat|fix|docs|style|refactor|perf|test|build|ci|chore|revert\",\n  \"scope\": \"optional short scope or empty string\",\n  \"subject\": \"imperative mood summary, no trailing period\",\n  \"body\": [\"optional detail line 1\", \"optional detail line 2\"],\n  \"breaking_change\": false\n\x7d\nRules:\n- Keep header intent specific and factual.\n- Prefer \"chore\" if uncertain.\n- subject should be concise and <= 72 chars when combined with type/scope.\n- body lines should be short and meaningful.\n- Return JSON only; no markdown fences, no commentary.\n"

/-- Model of `prompting.PromptTokenUsage`. -/
structure PromptTokenUsage where
  model_name : Str
  encoding_name : Str
  context_tokens_before : Nat
  context_tokens_after : Nat
  total_tokens_before : Nat
  total_tokens_after : Nat
  token_limit : Option Int
  compression_applied : Bool
  compression_steps : List Str

/-- Model of `prompting.PromptPayload`. -/
structure PromptPayload where
  system : Str
  user : Str
  context : Str
  token_usage : Option PromptTokenUsage

/-- Model of `prompting._build_user_prompt`. -/
def _build_user_prompt (context : Str) : Str :=
  str "Generate one normalized conventional commit proposal from the git context.\nFocus on user-impacting and structural changes, not file-by-file narration.\n\n"
    ++ context ++ ['\n']

/-- Model of `prompting._ensure_positive_token_limit`. -/
def _ensure_positive_token_limit (max_tokens : Int) : Except ConfigError Unit :=
  if max_tokens ≤ 0 then .error ⟨str "max_context_tokens must be a positive integer."⟩
  else .ok ()

/-- Model of `prompting.build_context`. -/
def build_context (snapshot : RepoSnapshot) (max_chars : Nat) : Str :=
  _trim_sections (_build_sections snapshot) max_chars

/-- Python `dict(sections)` followed by `.get(key, "")`: the last binding
of a key wins, absent keys read as the empty string. -/
def dictOf (sections : List (Str × Str)) : Str → Str :=
  fun key => (sections.reverse.lookup key).getD []

/-- Python `section_map[key] = value` on the dictionary, as a function
update. -/
def dictSet (m : Str → Str) (key v : Str) : Str → Str :=
  fun k => if k = key then v else m k

/-- Result of one compression phase: the current context, the token count
the pipeline tracks for it, the stage identifiers recorded, and every
context string assigned during the phase (in assignment order). -/
structure StageOut where
  ctx : Str
  cur : Nat
  steps : List Str
  trace : List Str

/-- The stage identifier `f"drop_{name.lower().replace(' ', '_')}"`. -/
def dropStepName (name : Str) : Str :=
  str "drop_" ++ (pyLower name).map (fun ch => if ch = ' ' then '_' else ch)

/-- Model of `build_prompt` lines 158-167: when over budget, blank the two
low-value sections (each recorded only if its stripped content is
non-empty), then re-render and re-count once if anything was recorded. -/
def dropPhase {α : Type} (c : TokenCounter α) (sections : List (Str × Str)) (ctx : Str)
    (cur : Nat) (max_chars : Nat) (token_limit : Int) : StageOut :=
  if (cur : Int) > token_limit then
    let r := [str "Untracked Files", str "Recent Commit Subjects"].foldl
      (fun acc name =>
        if pyStrip (acc.1 name) ≠ [] then (dictSet acc.1 name [], acc.2 ++ [dropStepName name])
        else acc)
      (dictOf sections, ([] : List Str))
    if r.2 ≠ [] then
      let ordered := sections.map (fun q => (q.1, r.1 q.1))
      let ctx' := _trim_sections ordered max_chars
      ⟨ctx', c.count ctx', r.2, [ctx']⟩
    else ⟨ctx, cur, [], []⟩
  else ⟨ctx, cur, [], []⟩

/-- Model of `build_prompt` line 170: the fixed diff-windowing schedule. -/
def diff_budget : List (Nat × Nat) := [(120, 40), (80, 24), (40, 12), (20, 6)]

/-- Model of `build_prompt` lines 175-195: one pass over the windowing schedule.
Each step compresses both diffs in the map, and when either changed it
re-renders, re-counts, records the stage, adopts the candidate and stops
once the budget is met. -/
def windowLoop {α : Type} (c : TokenCounter α) (sections : List (Str × Str)) (max_chars : Nat)
    (token_limit : Int) : (Str → Str) → Str → Nat → List (Nat × Nat) → StageOut
  | _, ctx, cur, [] => ⟨ctx, cur, [], []⟩
  | m, ctx, cur, (head_lines, tail_lines) :: rest =>
    let staged := m (str "Staged Diff")
    let stagedC := _compress_diff_text staged head_lines tail_lines
    let m1 := if stagedC = staged then m else dictSet m (str "Staged Diff") stagedC
    let unstaged := m1 (str "Unstaged Diff")
    let unstagedC := _compress_diff_text unstaged head_lines tail_lines
    let m2 := if unstagedC = unstaged then m1 else dictSet m1 (str "Unstaged Diff") unstagedC
    if stagedC = staged ∧ unstagedC = unstaged then
      windowLoop c sections max_chars token_limit m2 ctx cur rest
    else
      let ordered := sections.map (fun q => (q.1, m2 q.1))
      let candidate := _trim_sections ordered max_chars
      let candidate_tokens := c.count candidate
      let stepName := str "compress_diffs_head" ++ (Nat.repr head_lines).data
        ++ str "_tail" ++ (Nat.repr tail_lines).data
      if (candidate_tokens : Int) ≤ token_limit then
        ⟨candidate, candidate_tokens, [stepName], [candidate]⟩
      else
        let r := windowLoop c sections max_chars token_limit m2 candidate candidate_tokens rest
        ⟨r.ctx, r.cur, stepName :: r.steps, candidate :: r.trace⟩

/-- Model of `build_prompt` lines 169-195: the windowing phase starts from a fresh
section dictionary with both low-value sections blanked unconditionally. -/
def windowPhase {α : Type} (c : TokenCounter α) (sections : List (Str × Str)) (ctx : Str)
    (cur : Nat) (max_chars : Nat) (token_limit : Int) : StageOut :=
  if (cur : Int) > token_limit then
    let m0 := dictSet (dictSet (dictOf sections) (str "Untracked Files") [])
      (str "Recent Commit Subjects") []
    windowLoop c sections max_chars token_limit m0 ctx cur diff_budget
  else ⟨ctx, cur, [], []⟩

/-- Model of `build_prompt` lines 197-199: hard token-level truncation. The source
does not re-read `current_tokens` afterwards, so `cur` is left as is. -/
def truncPhase {α : Type} (c : TokenCounter α) (ctx : Str) (cur : Nat) (token_limit : Int) :
    StageOut :=
  if (cur : Int) > token_limit then
    let ctx' := c.truncate ctx token_limit
    ⟨ctx', cur, [str "hard_token_truncate"], [ctx']⟩
  else ⟨ctx, cur, [], []⟩

/-- Model of `build_prompt` lines 157-199: the full token-compression pipeline over
an already rendered context. -/
def compressStages {α : Type} (c : TokenCounter α) (sections : List (Str × Str)) (ctx : Str)
    (max_chars : Nat) (token_limit : Int) : StageOut :=
  let d := dropPhase c sections ctx (c.count ctx) max_chars token_limit
  let w := windowPhase c sections d.ctx d.cur max_chars token_limit
  let h := truncPhase c w.ctx w.cur token_limit
  ⟨h.ctx, h.cur, d.steps ++ w.steps ++ h.steps, d.trace ++ w.trace ++ h.trace⟩

/-- Model of `build_prompt` lines 204-214: the usage record, with the after-counts
recomputed from the final context. -/
def mkUsage {α : Type} (c : TokenCounter α) (ctx : Str) (context_tokens_before : Nat)
    (total_tokens_before : Nat) (token_limit : Option Int) (steps : List Str) :
    PromptTokenUsage :=
  { model_name := c.model_name
  , encoding_name := c.encoding_name
  , context_tokens_before := context_tokens_before
  , context_tokens_after := c.count ctx
  , total_tokens_before := total_tokens_before
  , total_tokens_after := c.count SYSTEM_PROMPT + c.count (_build_user_prompt ctx)
  , token_limit := token_limit
  , compression_applied := !steps.isEmpty
  , compression_steps := steps }

/-- Observable operations of one `build_prompt` call, in source order:
each assignment to `context`, each `counter.count` call at the top level,
and the raise of the budget configuration error. -/
inductive BuildEv where
  | setCtx (ctx : Str)
  | countCall (n : Nat)
  | raiseBudget
deriving DecidableEq

/-- The shape of an event, forgetting its payload. -/
inductive EvTag where
  | ctx
  | cnt
  | bud
deriving DecidableEq

/-- Tag of an event. -/
def evTag : BuildEv → EvTag
  | .setCtx _ => .ctx
  | .countCall _ => .cnt
  | .raiseBudget => .bud

/-- Model of `prompting.build_prompt` with the counting backend already resolved,
paired with its event transcript. The baseline render (line 137) and the
counting calls (lines 150-151) happen before the budget check
(line 156). -/
def build_prompt_ev {α : Type} (c : TokenCounter α) (snapshot : RepoSnapshot)
    (max_chars : Nat) (max_tokens : Option Int) :
    Except ConfigError PromptPayload × List BuildEv :=
  let sections := _build_sections snapshot
  let context := _trim_sections sections max_chars
  let user_prompt := _build_user_prompt context
  let context_tokens_before := c.count context
  let nSys := c.count SYSTEM_PROMPT
  let nUsr := c.count user_prompt
  let total_tokens_before := nSys + nUsr
  let ev0 := [BuildEv.setCtx context, .countCall context_tokens_before, .countCall nSys,
    .countCall nUsr]
  match max_tokens with
  | none =>
    (.ok { system := SYSTEM_PROMPT, user := _build_user_prompt context, context := context
         , token_usage := some (mkUsage c context context_tokens_before total_tokens_before
             none []) }, ev0)
  | some token_limit =>
    match _ensure_positive_token_limit token_limit with
    | .error e => (.error e, ev0 ++ [.raiseBudget])
    | .ok _ =>
      let r := compressStages c sections context max_chars token_limit
      (.ok { system := SYSTEM_PROMPT, user := _build_user_prompt r.ctx, context := r.ctx
           , token_usage := some (mkUsage c r.ctx context_tokens_before total_tokens_before
               (some token_limit) r.steps) }, ev0 ++ r.trace.map BuildEv.setCtx)

/-- Model of `prompting.build_prompt`: the returned value alone. -/
def build_prompt {α : Type} (c : TokenCounter α) (snapshot : RepoSnapshot) (max_chars : Nat)
    (max_tokens : Option Int) : Except ConfigError PromptPayload :=
  (build_prompt_ev c snapshot max_chars max_tokens).1

/-! ### Concrete fixtures

A character-level encoding (tokens are the code points themselves), the
same behaviour as the `_FakeCounter` test double in
`tests/test_prompting.py` (`count = len`, `truncate = text[:n]`). -/

/-- The character-level encoding: every code point is one token. -/
def charEncoding : Encoding Char := ⟨fun s => s, fun l => l⟩

/-- A counter bound to the character-level encoding. -/
def charCounter : TokenCounter Char :=
  ⟨str "char-model", str "char-encoding", charEncoding⟩

/-- Substring test: `pat` occurs contiguously in `s`. -/
def containsSub (pat s : Str) : Bool :=
  (List.range (s.length + 1)).any (fun i => decide ((s.drop i).take pat.length = pat))

/-- The context strings a build assigned, in order (baseline first). -/
def ctxTrace (evs : List BuildEv) : List Str :=
  evs.filterMap (fun e => match e with | .setCtx c => some c | _ => none)

/-- Whether a sequence of measures is monotonically non-increasing. -/
def nonIncreasing : List Nat → Bool
  | [] => true
  | [_] => true
  | a :: b :: rest => decide (b ≤ a) && nonIncreasing (b :: rest)

/-- Scenario B input: a 300-character staged diff, everything else empty. -/
def snapB : RepoSnapshot :=
  { branch := [], status_short := [], staged_diff := List.replicate 300 'a'
  , unstaged_diff := [], untracked_files := [], changed_files := [], recent_commits := [] }

/-- Input where only the two low-value sections carry weight: a large
untracked listing and a small recent-history text. -/
def snap4 : RepoSnapshot :=
  { branch := str "main", status_short := [], staged_diff := []
  , unstaged_diff := [], untracked_files := List.replicate 50 'u'
  , changed_files := [], recent_commits := str "r1" }

/-- Fixture `snap4` with the untracked listing already removed. -/
def snap4u : RepoSnapshot := { snap4 with untracked_files := [] }

/-- Input whose staged diff is 162 one-character lines: the first windowing
step replaces a 2-line middle with a longer marker line. -/
def snap6 : RepoSnapshot :=
  { branch := [], status_short := [], staged_diff := pyJoin ['\n'] (List.replicate 162 ['x'])
  , unstaged_diff := [], untracked_files := [], changed_files := [], recent_commits := [] }

/-- A backend whose model lookup always succeeds but which recognizes no
encoding name. -/
def tkNoNames : TiktokenModule Char :=
  ⟨fun _ => none, fun _ => some ⟨str "model-enc", charEncoding⟩⟩

/-- A backend that recognizes no model and only the first fallback. -/
def tkFallback1 : TiktokenModule Char :=
  ⟨fun name => if name = str "o200k_base" then some ⟨str "o200k_base", charEncoding⟩ else none,
   fun _ => none⟩

/-- A backend that recognizes exactly one encoding name while every model
lookup would resolve to a different, model-derived encoding. -/
def tkExplicit : TiktokenModule Char :=
  ⟨fun name => if name = str "custom_enc" then some ⟨str "custom_enc", charEncoding⟩ else none,
   fun _ => some ⟨str "model-enc", charEncoding⟩⟩

/-! ## Theorems -/

/-- The character-level encoding satisfies the backend contract. -/
theorem charEncoding_faithful : charEncoding.Faithful := by
  refine ⟨rfl, fun s h => h, fun s k => ?_⟩
  simp [charEncoding]

/-- Dropping a prefix of elements never lengthens a list. -/
theorem length_dropWhile_le (f : Char → Bool) (l : Str) :
    (l.dropWhile f).length ≤ l.length := by
  conv_rhs => rw [← List.takeWhile_append_dropWhile f l]
  rw [List.length_append]; omega

/-- Right-stripping never lengthens a string. -/
theorem length_pyRstrip_le (l : Str) : (pyRstrip l).length ≤ l.length := by
  have h := length_dropWhile_le isPySpace l.reverse
  simpa [pyRstrip] using h

/-- Stripping never lengthens a string. -/
theorem length_pyStrip_le (l : Str) : (pyStrip l).length ≤ l.length := by
  have h := length_dropWhile_le isPySpace l
  exact (length_pyRstrip_le (pyLstrip l)).trans (by simpa [pyLstrip] using h)

/-- A string ending in a newline loses at least that character to
right-stripping. -/
theorem pyRstrip_length_lt {l : Str} (h : l.getLast? = some '\n') :
    (pyRstrip l).length + 1 ≤ l.length := by
  have hrev : l.reverse.head? = some '\n' := by rw [List.head?_reverse]; exact h
  cases hr : l.reverse with
  | nil => rw [hr] at hrev; simp at hrev
  | cons a t =>
    rw [hr] at hrev
    simp only [List.head?_cons, Option.some.injEq] at hrev
    subst hrev
    have hl : l.length = t.length + 1 := by
      have hlen := congrArg List.length hr
      simpa using hlen
    have hdw : pyRstrip l = (t.dropWhile isPySpace).reverse := by
      simp [pyRstrip, hr, List.dropWhile_cons, show isPySpace '\n' = true from rfl]
    rw [hdw]
    have := length_dropWhile_le isPySpace t
    simp only [List.length_reverse]
    omega

/-- Appending a newline-terminated string keeps the final newline. -/
theorem getLast?_append_nl (l m : Str) (h : m.getLast? = some '\n') :
    (l ++ m).getLast? = some '\n' := by
  rw [List.getLast?_append_of_ne_nil l (by rintro rfl; simp at h)]
  exact h

/-- A non-empty rendered section ends in a newline. -/
theorem _section_getLast? {title content : Str} (h : _section title content ≠ []) :
    (_section title content).getLast? = some '\n' := by
  by_cases hc : pyStrip content = []
  · simp [_section, hc] at h
  · simp only [_section, if_neg hc]
    exact List.getLast?_concat _

/-- Every part the renderer buffers ends in a newline. -/
theorem trimGo_getLast? (mc : Nat) :
    ∀ (secs : List (Str × Str)) (used : Nat) (p : Str),
      p ∈ trimGo mc secs used → p.getLast? = some '\n' := by
  intro secs
  induction secs with
  | nil => intro used p hp; simp [trimGo] at hp
  | cons s rest ih =>
    obtain ⟨title, content⟩ := s
    intro used p hp
    simp only [trimGo] at hp
    split_ifs at hp with h0 h1 h2 h3
    · exact ih used p hp
    · simp at hp
    · rcases List.mem_cons.mp hp with h | h
      · rw [h]; exact _section_getLast? h0
      · exact ih _ p h
    · simp at hp
    · rcases List.mem_cons.mp hp with h | h
      · rw [h]
        exact getLast?_append_nl _ _ (by decide)
      · simp at h

/-- The renderer's buffer never holds more characters than the budget left
over from `used`. -/
theorem trimGo_sum_le (mc : Nat) :
    ∀ (secs : List (Str × Str)) (used : Nat),
      ((trimGo mc secs used).map List.length).sum ≤ mc - used := by
  intro secs
  induction secs with
  | nil => intro used; simp [trimGo]
  | cons s rest ih =>
    obtain ⟨title, content⟩ := s
    intro used
    simp only [trimGo]
    split_ifs with h0 h1 h2 h3
    · exact ih used
    · simp
    · simp only [List.map_cons, List.sum_cons]
      have hrec := ih (used + (_section title content).length)
      omega
    · simp
    · simp only [List.map_cons, List.map_nil, List.sum_cons, List.sum_nil]
      have hhead : ((_section title content).take (mc - used - 20)).length ≤ mc - used - 20 :=
        List.length_take_le _ _
      have hrs := length_pyRstrip_le ((_section title content).take (mc - used - 20))
      have hmarker : (str "\n...[truncated]\n").length = 16 := by decide
      have hne : mc - used - 20 ≠ 0 := by
        intro hz
        exact h3 (by simp [hz])
      rw [List.length_append, hmarker]
      omega

/-- Joining the right-stripped non-empty parts with newlines stays within
the total length of the raw parts. -/
theorem pyJoin_cons_le (x : Str) (L : List Str) :
    (pyJoin ['\n'] (x :: L)).length ≤ x.length + 1 + (pyJoin ['\n'] L).length := by
  cases L with
  | nil => simp [pyJoin]
  | cons y ys => simp [pyJoin]; omega

/-- The final join-and-rstrip step never exceeds the summed part
lengths. -/
theorem joined_length_le :
    ∀ (parts : List Str), (∀ p ∈ parts, p.getLast? = some '\n') →
      (pyJoin ['\n'] ((parts.filter (· ≠ [])).map pyRstrip)).length
        ≤ (parts.map List.length).sum := by
  intro parts
  induction parts with
  | nil => intro _; simp [pyJoin]
  | cons p rest ih =>
    intro h
    have hp : p ≠ [] := by
      intro hz
      have := h p (by simp)
      rw [hz] at this
      simp at this
    have hlt := pyRstrip_length_lt (h p (by simp))
    have hrest := ih (fun q hq => h q (List.mem_cons_of_mem _ hq))
    have hfc : (p :: rest).filter (· ≠ []) = p :: rest.filter (· ≠ []) := by
      simp [List.filter_cons, hp]
    rw [hfc]
    simp only [List.map_cons, List.sum_cons]
    calc (pyJoin ['\n'] (pyRstrip p :: (rest.filter (· ≠ [])).map pyRstrip)).length
        ≤ (pyRstrip p).length + 1
          + (pyJoin ['\n'] ((rest.filter (· ≠ [])).map pyRstrip)).length :=
          pyJoin_cons_le _ _
      _ ≤ p.length + (rest.map List.length).sum := by omega

/-- The rendered context never exceeds the character budget. -/
theorem _trim_sections_length_le (secs : List (Str × Str)) (mc : Nat) :
    (_trim_sections secs mc).length ≤ mc := by
  have h1 := length_pyStrip_le
    (pyJoin ['\n'] (((trimGo mc secs 0).filter (· ≠ [])).map pyRstrip))
  have h2 := joined_length_le (trimGo mc secs 0) (trimGo_getLast? mc secs 0)
  have h3 := trimGo_sum_le mc secs 0
  unfold _trim_sections
  omega

/-- For a contract-abiding backend, truncation to a positive budget leaves
at most that many tokens. -/
theorem count_truncate_le {α : Type} (c : TokenCounter α) (hf : c.encoding.Faithful)
    (ctx : Str) {t : Int} (ht : 0 < t) : (c.count (c.truncate ctx t) : Int) ≤ t := by
  unfold TokenCounter.truncate
  rw [if_neg (by omega)]
  by_cases hle : ((c.encoding.encode ctx).length : Int) ≤ t
  · rw [if_pos hle]
    simpa [TokenCounter.count] using hle
  · rw [if_neg hle]
    have hb := hf.take_bound ctx t.toNat
    unfold TokenCounter.count
    omega

/-- The drop phase keeps the tracked token count in sync with the
context. -/
theorem dropPhase_cur {α : Type} (c : TokenCounter α) (secs : List (Str × Str)) (ctx : Str)
    (cur : Nat) (mc : Nat) (t : Int) (h : cur = c.count ctx) :
    (dropPhase c secs ctx cur mc t).cur = c.count (dropPhase c secs ctx cur mc t).ctx := by
  unfold dropPhase
  split
  · dsimp only
    split
    · rfl
    · exact h
  · exact h

/-- The windowing loop keeps the tracked token count in sync with the
context. -/
theorem windowLoop_cur {α : Type} (c : TokenCounter α) (secs : List (Str × Str)) (mc : Nat)
    (t : Int) :
    ∀ (sched : List (Nat × Nat)) (m : Str → Str) (ctx : Str) (cur : Nat),
      cur = c.count ctx →
      (windowLoop c secs mc t m ctx cur sched).cur
        = c.count (windowLoop c secs mc t m ctx cur sched).ctx := by
  intro sched
  induction sched with
  | nil => intro m ctx cur h; simpa [windowLoop] using h
  | cons hw rest ih =>
    obtain ⟨hl, tl⟩ := hw
    intro m ctx cur h
    simp only [windowLoop]
    split_ifs <;> first | exact ih _ _ _ h | exact ih _ _ _ rfl | rfl

/-- The windowing phase keeps the tracked token count in sync with the
context. -/
theorem windowPhase_cur {α : Type} (c : TokenCounter α) (secs : List (Str × Str)) (ctx : Str)
    (cur : Nat) (mc : Nat) (t : Int) (h : cur = c.count ctx) :
    (windowPhase c secs ctx cur mc t).cur = c.count (windowPhase c secs ctx cur mc t).ctx := by
  unfold windowPhase
  split_ifs with h1
  · exact windowLoop_cur c secs mc t _ _ _ _ h
  · exact h

/-- For a contract-abiding backend and a positive budget, the pipeline
always ends within the token budget. -/
theorem compress_count_le {α : Type} (c : TokenCounter α) (hf : c.encoding.Faithful)
    (secs : List (Str × Str)) (ctx : Str) (mc : Nat) {t : Int} (ht : 0 < t) :
    (c.count (compressStages c secs ctx mc t).ctx : Int) ≤ t := by
  have hd := dropPhase_cur c secs ctx (c.count ctx) mc t rfl
  have hw := windowPhase_cur c secs (dropPhase c secs ctx (c.count ctx) mc t).ctx
    (dropPhase c secs ctx (c.count ctx) mc t).cur mc t hd
  show (c.count (truncPhase c (windowPhase c secs _ _ mc t).ctx
    (windowPhase c secs _ _ mc t).cur t).ctx : Int) ≤ t
  unfold truncPhase
  split_ifs with hgt
  · exact count_truncate_le c hf _ ht
  · rw [← hw]; omega

/-- When the context is already within budget, the pipeline does
nothing. -/
theorem compressStages_of_le {α : Type} (c : TokenCounter α) (secs : List (Str × Str))
    (ctx : Str) (mc : Nat) {t : Int} (h : (c.count ctx : Int) ≤ t) :
    compressStages c secs ctx mc t = ⟨ctx, c.count ctx, [], []⟩ := by
  have hng : ¬ ((c.count ctx : Int) > t) := not_lt.mpr h
  simp [compressStages, dropPhase, windowPhase, truncPhase, hng]

/-- With a resolved counter and a positive token budget, `build_prompt`
returns the compressed pipeline output. -/
theorem build_prompt_pos_eq {α : Type} (c : TokenCounter α) (snapshot : RepoSnapshot)
    (mc : Nat) {t : Int} (ht : 0 < t) :
    build_prompt c snapshot mc (some t) = .ok
      { system := SYSTEM_PROMPT
      , user := _build_user_prompt
          (compressStages c (_build_sections snapshot) (build_context snapshot mc) mc t).ctx
      , context :=
          (compressStages c (_build_sections snapshot) (build_context snapshot mc) mc t).ctx
      , token_usage := some (mkUsage c
          (compressStages c (_build_sections snapshot) (build_context snapshot mc) mc t).ctx
          (c.count (build_context snapshot mc))
          (c.count SYSTEM_PROMPT + c.count (_build_user_prompt (build_context snapshot mc)))
          (some t)
          (compressStages c (_build_sections snapshot) (build_context snapshot mc) mc t).steps) }
      := by
  simp only [build_prompt, build_prompt_ev, build_context, _ensure_positive_token_limit,
    if_neg (by omega : ¬ t ≤ 0)]

/-- C1: for every snapshot, character budget and positive token budget,
with a successfully resolved, contract-abiding backend, the returned
context is within the token budget; and when drop and windowing leave the
context over budget, the hard-truncation stage is recorded last. -/
theorem spec_c1 {α : Type} (c : TokenCounter α) (snapshot : RepoSnapshot) (mc : Nat)
    (t : Int) (hf : c.encoding.Faithful) (ht : 0 < t) :
    ∃ p, build_prompt c snapshot mc (some t) = .ok p ∧
      (c.count p.context : Int) ≤ t ∧
      (((windowPhase c (_build_sections snapshot)
            (dropPhase c (_build_sections snapshot) (build_context snapshot mc)
              (c.count (build_context snapshot mc)) mc t).ctx
            (dropPhase c (_build_sections snapshot) (build_context snapshot mc)
              (c.count (build_context snapshot mc)) mc t).cur mc t).cur : Int) > t →
        ∃ u, p.token_usage = some u ∧
          u.compression_steps.getLast? = some (str "hard_token_truncate")) := by
  refine ⟨_, build_prompt_pos_eq c snapshot mc ht, ?_, ?_⟩
  · exact compress_count_le c hf (_build_sections snapshot) (build_context snapshot mc) mc ht
  · intro hgt
    refine ⟨_, rfl, ?_⟩
    show (compressStages c (_build_sections snapshot) (build_context snapshot mc) mc t).steps.getLast?
      = some (str "hard_token_truncate")
    have hsteps : (compressStages c (_build_sections snapshot) (build_context snapshot mc) mc t).steps
        = (dropPhase c (_build_sections snapshot) (build_context snapshot mc)
            (c.count (build_context snapshot mc)) mc t).steps
          ++ (windowPhase c (_build_sections snapshot)
                (dropPhase c (_build_sections snapshot) (build_context snapshot mc)
                  (c.count (build_context snapshot mc)) mc t).ctx
                (dropPhase c (_build_sections snapshot) (build_context snapshot mc)
                  (c.count (build_context snapshot mc)) mc t).cur mc t).steps
          ++ [str "hard_token_truncate"] := by
      show (dropPhase c (_build_sections snapshot) (build_context snapshot mc)
            (c.count (build_context snapshot mc)) mc t).steps
          ++ _ ++ (truncPhase c _ _ t).steps = _
      rw [truncPhase, if_pos hgt]
    rw [hsteps]
    exact List.getLast?_concat _

/-- Witness for C1 at a concrete input. -/
theorem spec_c1_witness :
    ∃ p, build_prompt charCounter snap4 1000 (some 3) = .ok p ∧
      (charCounter.count p.context : Int) ≤ 3 ∧
      (((windowPhase charCounter (_build_sections snap4)
            (dropPhase charCounter (_build_sections snap4) (build_context snap4 1000)
              (charCounter.count (build_context snap4 1000)) 1000 3).ctx
            (dropPhase charCounter (_build_sections snap4) (build_context snap4 1000)
              (charCounter.count (build_context snap4 1000)) 1000 3).cur 1000 3).cur : Int) > 3 →
        ∃ u, p.token_usage = some u ∧
          u.compression_steps.getLast? = some (str "hard_token_truncate")) :=
  spec_c1 charCounter snap4 1000 3 charEncoding_faithful (by decide)

/-- C5: truncation re-counts within the bound, is the identity within
budget, and yields the empty string for non-positive budgets. -/
theorem spec_c5 {α : Type} (c : TokenCounter α) (hf : c.encoding.Faithful)
    (text : Str) (n : Int) :
    (0 ≤ n → (c.count (c.truncate text n) : Int) ≤ n) ∧
    ((c.count text : Int) ≤ n → c.truncate text n = text) ∧
    (n ≤ 0 → c.truncate text n = []) := by
  refine ⟨?_, ?_, ?_⟩
  · intro hn
    rcases eq_or_lt_of_le hn with h0 | hpos
    · rw [← h0]
      unfold TokenCounter.truncate
      rw [if_pos le_rfl]
      simp [TokenCounter.count, hf.encode_nil]
    · exact count_truncate_le c hf text hpos
  · intro hle
    unfold TokenCounter.truncate
    by_cases hz : n ≤ 0
    · rw [if_pos hz]
      have hc0 : (c.encoding.encode text).length = 0 := by
        have : c.count text = 0 := by unfold TokenCounter.count at hle ⊢; omega
        exact this
      have htext := hf.eq_nil_of_encode_eq_nil text (List.length_eq_zero.mp hc0)
      rw [htext]
    · rw [if_neg hz, if_pos (by simpa [TokenCounter.count] using hle)]
  · intro hz
    unfold TokenCounter.truncate
    rw [if_pos hz]

/-- Witness for C5 at a concrete input. -/
theorem spec_c5_witness :
    (charCounter.count (charCounter.truncate (str "hello") 3) : Int) ≤ 3 :=
  (spec_c5 charCounter charEncoding_faithful (str "hello") 3).1 (by decide)

/-- C7: re-running the compression stages on the context a build produced,
fed back as a single pre-rendered section under the same budgets, records
zero stages. -/
theorem spec_c7 {α : Type} (c : TokenCounter α) (snapshot : RepoSnapshot) (mc : Nat)
    (t : Int) (hf : c.encoding.Faithful) (ht : 0 < t) :
    ∃ p, build_prompt c snapshot mc (some t) = .ok p ∧
      (compressStages c [(str "Context", p.context)] p.context mc t).steps = [] := by
  refine ⟨_, build_prompt_pos_eq c snapshot mc ht, ?_⟩
  rw [compressStages_of_le c [(str "Context", _)] _ mc
    (compress_count_le c hf (_build_sections snapshot) (build_context snapshot mc) mc ht)]

/-- Witness for C7 at a concrete input. -/
theorem spec_c7_witness :
    ∃ p, build_prompt charCounter snap4 1000 (some 3) = .ok p ∧
      (compressStages charCounter [(str "Context", p.context)] p.context 1000 3).steps = [] :=
  spec_c7 charCounter snap4 1000 3 charEncoding_faithful (by decide)

/-- C6 (amended): the final context token count never exceeds the
baseline token count, although intermediate stages need not be monotone. -/
theorem spec_c6_amended {α : Type} (c : TokenCounter α) (snapshot : RepoSnapshot) (mc : Nat)
    (t : Int) (hf : c.encoding.Faithful) (ht : 0 < t) :
    ∃ p, build_prompt c snapshot mc (some t) = .ok p ∧
      c.count p.context ≤ c.count (build_context snapshot mc) := by
  refine ⟨_, build_prompt_pos_eq c snapshot mc ht, ?_⟩
  show c.count (compressStages c (_build_sections snapshot) (build_context snapshot mc) mc t).ctx
    ≤ c.count (build_context snapshot mc)
  rcases le_or_lt ((c.count (build_context snapshot mc) : Int)) t with hle | hgt
  · rw [compressStages_of_le c (_build_sections snapshot) (build_context snapshot mc) mc hle]
  · have hfin := compress_count_le c hf (_build_sections snapshot)
      (build_context snapshot mc) mc ht
    omega

/-- Witness for the amended C6 at a concrete input. -/
theorem spec_c6_witness :
    ∃ p, build_prompt charCounter snap6 100000 (some 100) = .ok p ∧
      charCounter.count p.context ≤ charCounter.count (build_context snap6 100000) :=
  spec_c6_amended charCounter snap6 100000 100 charEncoding_faithful (by decide)

set_option maxRecDepth 1000000 in
/-- Counterexample to C6 as stated: on `snap6` the stage sequence of
context strings is increasing from the baseline to the first windowing
step, in character length and in token count alike. -/
theorem spec_c6_cex :
    nonIncreasing
        ((ctxTrace (build_prompt_ev charCounter snap6 100000 (some 100)).2).map List.length)
      = false ∧
    nonIncreasing
        ((ctxTrace (build_prompt_ev charCounter snap6 100000 (some 100)).2).map
          charCounter.count)
      = false := by
  constructor <;> decide

set_option maxRecDepth 1000000 in
/-- C2: for every section list and character budget the rendered context
stays within the budget plus the 30-character marker allowance; and on a
300-character staged diff with budget 180 the output is at most 210
characters and carries the truncation marker. -/
theorem spec_c2 :
    (∀ (sections : List (Str × Str)) (c : Nat),
      (_trim_sections sections c).length ≤ c + 30) ∧
    (build_context snapB 180).length ≤ 210 ∧
    containsSub (str "...[truncated]") (build_context snapB 180) = true := by
  refine ⟨fun sections c => ?_, by decide, by decide⟩
  have h := _trim_sections_length_le sections c
  omega

/-- C3 (amended): a non-positive token budget makes `build_prompt` raise
the configuration error, but only after the baseline context has been
rendered and counted. -/
theorem spec_c3_amended {α : Type} (c : TokenCounter α) (snapshot : RepoSnapshot) (mc : Nat)
    (t : Int) (hle : t ≤ 0) :
    (build_prompt_ev c snapshot mc (some t)).1
        = .error ⟨str "max_context_tokens must be a positive integer."⟩ ∧
    ((build_prompt_ev c snapshot mc (some t)).2).map evTag
        = [.ctx, .cnt, .cnt, .cnt, .bud] := by
  constructor <;>
    simp [build_prompt_ev, _ensure_positive_token_limit, if_pos hle, evTag]

/-- Witness for the amended C3 at a concrete input. -/
theorem spec_c3_witness :
    (build_prompt_ev charCounter snapB 50 (some (-2))).1
        = .error ⟨str "max_context_tokens must be a positive integer."⟩ ∧
    ((build_prompt_ev charCounter snapB 50 (some (-2))).2).map evTag
        = [.ctx, .cnt, .cnt, .cnt, .bud] :=
  spec_c3_amended charCounter snapB 50 (-2) (by decide)

set_option maxRecDepth 1000000 in
/-- Counterexample to C3 as stated: with `max_tokens = 0` the error is
raised, but the event transcript shows a render and three count calls
occur before it. -/
theorem spec_c3_cex :
    ((build_prompt_ev charCounter snap4 50 (some 0)).2).map evTag
        = [.ctx, .cnt, .cnt, .cnt, .bud] ∧
    (build_prompt_ev charCounter snap4 50 (some 0)).1
        = .error ⟨str "max_context_tokens must be a positive integer."⟩ := by
  constructor
  · decide
  · rfl

/-- C4 (amended): when the baseline is over budget, both low-value
sections are blanked in one batch (each recorded only if its stripped
content was non-empty, in the fixed order), after which the pipeline
re-renders and re-counts exactly once; the drop steps are the first
entries of the stage list. -/
theorem spec_c4_amended {α : Type} (c : TokenCounter α) (secs : List (Str × Str)) (ctx : Str)
    (mc : Nat) (t : Int) (hgt : (c.count ctx : Int) > t) :
    (dropPhase c secs ctx (c.count ctx) mc t).steps
        = (if pyStrip (dictOf secs (str "Untracked Files")) ≠ [] then
            [dropStepName (str "Untracked Files")] else [])
          ++ (if pyStrip (dictOf secs (str "Recent Commit Subjects")) ≠ [] then
            [dropStepName (str "Recent Commit Subjects")] else []) ∧
    (dropPhase c secs ctx (c.count ctx) mc t).trace.length
        = (if (dropPhase c secs ctx (c.count ctx) mc t).steps = [] then 0 else 1) ∧
    (compressStages c secs ctx mc t).steps.take
        (dropPhase c secs ctx (c.count ctx) mc t).steps.length
      = (dropPhase c secs ctx (c.count ctx) mc t).steps := by
  have hkeys : ¬ (str "Recent Commit Subjects" = str "Untracked Files") := by decide
  refine ⟨?_, ?_, ?_⟩
  · rw [dropPhase, if_pos hgt]
    by_cases h1 : pyStrip (dictOf secs (str "Untracked Files")) = [] <;>
      by_cases h2 : pyStrip (dictOf secs (str "Recent Commit Subjects")) = [] <;>
        simp [h1, h2, dictSet, hkeys]
  · rw [dropPhase, if_pos hgt]
    by_cases h1 : pyStrip (dictOf secs (str "Untracked Files")) = [] <;>
      by_cases h2 : pyStrip (dictOf secs (str "Recent Commit Subjects")) = [] <;>
        simp [h1, h2, dictSet, hkeys]
  · show ((dropPhase c secs ctx (c.count ctx) mc t).steps ++ _ ++ _).take _ = _
    rw [List.append_assoc, List.take_left]

/-- Witness for the amended C4 at a concrete input. -/
theorem spec_c4_witness :
    (dropPhase charCounter (_build_sections snap4) (build_context snap4 1000)
        (charCounter.count (build_context snap4 1000)) 1000 50).steps
        = (if pyStrip (dictOf (_build_sections snap4) (str "Untracked Files")) ≠ [] then
            [dropStepName (str "Untracked Files")] else [])
          ++ (if pyStrip (dictOf (_build_sections snap4) (str "Recent Commit Subjects")) ≠ []
            then [dropStepName (str "Recent Commit Subjects")] else []) ∧
    (dropPhase charCounter (_build_sections snap4) (build_context snap4 1000)
        (charCounter.count (build_context snap4 1000)) 1000 50).trace.length
        = (if (dropPhase charCounter (_build_sections snap4) (build_context snap4 1000)
            (charCounter.count (build_context snap4 1000)) 1000 50).steps = [] then 0 else 1) ∧
    (compressStages charCounter (_build_sections snap4) (build_context snap4 1000)
        1000 50).steps.take
        (dropPhase charCounter (_build_sections snap4) (build_context snap4 1000)
          (charCounter.count (build_context snap4 1000)) 1000 50).steps.length
      = (dropPhase charCounter (_build_sections snap4) (build_context snap4 1000)
          (charCounter.count (build_context snap4 1000)) 1000 50).steps :=
  spec_c4_amended charCounter (_build_sections snap4) (build_context snap4 1000) 1000 50
    (by decide)

set_option maxRecDepth 1000000 in
/-- Counterexample to C4 as stated: on `snap4` with budget 50 the baseline
(113 tokens) is over budget and dropping the untracked listing alone
already meets the budget (43 tokens), yet the pipeline still records the
drop of the recent-history section. -/
theorem spec_c4_cex :
    (charCounter.count (build_context snap4 1000) : Int) > 50 ∧
    (charCounter.count (build_context snap4u 1000) : Int) ≤ 50 ∧
    (compressStages charCounter (_build_sections snap4) (build_context snap4 1000)
        1000 50).steps
      = [str "drop_untracked_files", str "drop_recent_commit_subjects"] := by
  refine ⟨by decide, by decide, by decide⟩

/-- C8: an explicit non-empty encoding name is resolved to exactly that
name and handle when the backend recognizes it, and otherwise resolution
fails with the named error; both outcomes are independent of the model
name, so an explicit request is never substituted. -/
theorem spec_c8 {α : Type} (tk : TiktokenModule α) (model_name name : Str)
    (hne : name ≠ []) :
    (∀ e, tk.get_encoding name = some e →
      _resolve_encoding tk model_name (some name) = .ok (name, e)) ∧
    (tk.get_encoding name = none →
      _resolve_encoding tk model_name (some name)
        = .error ⟨str "Unknown token encoding: " ++ name⟩) := by
  constructor
  · intro e he
    simp only [_resolve_encoding, if_neg hne, he]
  · intro hu
    simp only [_resolve_encoding, if_neg hne, hu]

/-- Witness for C8: one backend resolves the explicitly requested name to
itself even though every model lookup would give a different encoding, and
another backend that recognizes every model but no encoding name still
fails the explicit request. -/
theorem spec_c8_witness :
    _resolve_encoding tkExplicit (str "gpt-4.1-mini") (some (str "custom_enc"))
        = .ok (str "custom_enc", ⟨str "custom_enc", charEncoding⟩) ∧
    _resolve_encoding tkNoNames (str "gpt-4.1-mini") (some (str "zzz"))
        = .error ⟨str "Unknown token encoding: " ++ str "zzz"⟩ :=
  ⟨(spec_c8 tkExplicit (str "gpt-4.1-mini") (str "custom_enc") (by decide)).1
      ⟨str "custom_enc", charEncoding⟩ rfl,
   (spec_c8 tkNoNames (str "gpt-4.1-mini") (str "zzz") (by decide)).2 rfl⟩

/-- C9: with no explicit encoding and an unrecognized model, resolution
returns the first recognized fallback in the fixed order, and fails with
the model-naming error when both fallbacks are unrecognized. -/
theorem spec_c9 {α : Type} (tk : TiktokenModule α) (model_name : Str)
    (hm : tk.encoding_for_model model_name = none) :
    (∀ e1, tk.get_encoding (str "o200k_base") = some e1 →
      _resolve_encoding tk model_name none = .ok (str "o200k_base", e1)) ∧
    (∀ e2, tk.get_encoding (str "o200k_base") = none →
      tk.get_encoding (str "cl100k_base") = some e2 →
      _resolve_encoding tk model_name none = .ok (str "cl100k_base", e2)) ∧
    (tk.get_encoding (str "o200k_base") = none →
      tk.get_encoding (str "cl100k_base") = none →
      _resolve_encoding tk model_name none
        = .error ⟨str "Unable to resolve tokenizer encoding for model '" ++ model_name
            ++ str "'. Pass --token-encoding explicitly."⟩) := by
  refine ⟨?_, ?_, ?_⟩ <;> intros <;>
    simp_all [_resolve_encoding, _resolve_model_encoding, _first_recognized_fallback,
      _FALLBACK_ENCODINGS]

/-- Witness for C9: a backend that knows no model and only the first
fallback resolves to that fallback. -/
theorem spec_c9_witness :
    _resolve_encoding tkFallback1 (str "mystery-model") none
      = .ok (str "o200k_base", ⟨str "o200k_base", charEncoding⟩) :=
  (spec_c9 tkFallback1 (str "mystery-model") rfl).1 ⟨str "o200k_base", charEncoding⟩ rfl

/-- C10: with a resolved backend and no token budget, `build_prompt`
attaches telemetry with no limit, no steps, no compression flag, and
identical before and after counts. -/
theorem spec_c10 {α : Type} (c : TokenCounter α) (snapshot : RepoSnapshot) (mc : Nat) :
    ∃ u, build_prompt c snapshot mc none
        = .ok { system := SYSTEM_PROMPT
              , user := _build_user_prompt (build_context snapshot mc)
              , context := build_context snapshot mc
              , token_usage := some u } ∧
      u.token_limit = none ∧ u.compression_steps = [] ∧ u.compression_applied = false ∧
      u.context_tokens_before = u.context_tokens_after ∧
      u.total_tokens_before = u.total_tokens_after := by
  exact ⟨mkUsage c (build_context snapshot mc) (c.count (build_context snapshot mc))
    (c.count SYSTEM_PROMPT + c.count (_build_user_prompt (build_context snapshot mc))) none [],
    rfl, rfl, rfl, rfl, rfl, rfl⟩

end LazyCommit
